import Mathlib

/-!
Verification of the email-domain checker (src/sample.py).

Strings of the Python program are modelled as `List Char`, Python's
`str.split` as `pySplit`, list indexing (which can raise `IndexError`) as
`pyIndex` returning a `PyOutcome`, and the two logical functions of the
program — `extract_domain_from_email` (src/sample.py lines 14-21) and
`get_domain_history` (lines 24-48) — as executable Lean functions over
these models.  The public-suffix collaborator (`tldextract`) and the WHOIS
collaborator are external libraries; the former is modelled from the
spec's description of it, the latter is a parameter of the functions that
use it.
-/

set_option autoImplicit false

/-- A Python string, modelled as its list of characters. -/
abbrev Str := List Char

/-- A Python exception, as far as this program observes one: the
`IndexError` raised by out-of-range list indexing, or any other error
carrying a message (for example whatever the WHOIS library raises). -/
inductive PyExc where
  | indexError
  | err (msg : Str)
deriving DecidableEq

/-- The outcome of running a piece of Python code: either a normal value
or a raised exception. -/
inductive PyOutcome (α : Type) where
  | normal (a : α)
  | raised (e : PyExc)
deriving DecidableEq

/-- Sequencing of Python evaluation: a raised exception propagates. -/
def PyOutcome.bind {α β : Type} : PyOutcome α → (α → PyOutcome β) → PyOutcome β
  | .normal a, f => f a
  | .raised e, _ => .raised e

/-- The message text of an exception, as `f-string` interpolation of the
exception object would show it. -/
def PyExc.message : PyExc → Str
  | .indexError => ("list index out of range").toList
  | .err m => m

/-- Python's `s.split(sep)` for a one-character separator: splits at every
occurrence of `sep`; `"".split(sep)` is `[""]`, and adjacent separators
produce empty pieces, exactly as in Python. -/
def pySplit (sep : Char) : Str → List Str
  | [] => [[]]
  | c :: rest =>
    if c = sep then [] :: pySplit sep rest
    else
      match pySplit sep rest with
      | [] => [[c]]
      | h :: t => (c :: h) :: t

/-- Python's `l[i]`: the element at index `i`, or a raised `IndexError`
when the index is out of range. -/
def pyIndex {α : Type} (l : List α) (i : Nat) : PyOutcome α :=
  match l[i]? with
  | some a => .normal a
  | none => .raised .indexError

/-- The result of public-suffix decomposition of a hostname, mirroring the
`subdomain` / `domain` / `suffix` fields of `tldextract.ExtractResult`. -/
structure ExtractResult where
  subdomain : Str
  domain : Str
  suffix : Str
deriving DecidableEq

/-- Dot-joining of a list of labels (`".".join(labels)`). -/
def joinDots : List Str → Str
  | [] => []
  | [x] => x
  | x :: rest => x ++ '.' :: joinDots rest

/-- Auxiliary search for `bestSuffix`: tries candidate lengths `k, k-1, …, 1`
and returns the first (hence longest) number of trailing labels whose
dot-joined form is a recognized public suffix, `0` if none is. -/
def bestSuffixGo (psl : List Str) (labels : List Str) : Nat → Nat
  | 0 => 0
  | k + 1 =>
    if joinDots (labels.drop (labels.length - (k + 1))) ∈ psl then k + 1
    else bestSuffixGo psl labels k

/-- The number of trailing labels of `labels` forming the longest
recognized public suffix, `0` when no trailing group of labels is in the
public-suffix dataset. -/
def bestSuffix (psl : List Str) (labels : List Str) : Nat :=
  bestSuffixGo psl labels labels.length

/-- Decomposition of a label list into subdomain / registrable label /
public suffix, given the public-suffix dataset `psl`: the longest trailing
group of labels found in `psl` is the suffix, the label just before it is
the registrable domain, and everything earlier is the subdomain; with no
recognized suffix the last label is the domain and the suffix is empty. -/
def mkExtract (psl : List Str) (labels : List Str) : ExtractResult :=
  if bestSuffix psl labels = 0 then
    { subdomain := joinDots labels.dropLast
      domain := labels.getLastD []
      suffix := [] }
  else
    { subdomain := joinDots (labels.take (labels.length - bestSuffix psl labels)).dropLast
      domain := (labels.take (labels.length - bestSuffix psl labels)).getLastD []
      suffix := joinDots (labels.drop (labels.length - bestSuffix psl labels)) }

/-- Modelled from the spec: the public-suffix collaborator
(`tldextract.extract`, not part of this repository).  Per spec sections
4.1 and 6, it splits a hostname-like string into subdomain, registrable
label and public suffix against a reference dataset of suffixes. -/
def tldext (psl : List Str) (host : Str) : ExtractResult :=
  mkExtract psl (pySplit '.' host)

/-- Modelled from the spec: a concrete fragment of the static
public-suffix reference dataset, containing the suffixes the spec's
examples use (`com`, `co.uk`, …); `localhost` is deliberately not in it. -/
def defaultPSL : List Str :=
  [("com").toList, ("net").toList, ("org").toList, ("uk").toList, ("co.uk").toList]

/-- The domain candidate of an email: `email.split("@")[1]`
(src/sample.py line 16), which raises `IndexError` when the split has
fewer than two pieces. -/
def domainCandidate (email : Str) : PyOutcome Str :=
  pyIndex (pySplit '@' email) 1

/-- Line 18 of src/sample.py:
`f"{ext.domain}.{ext.suffix}" if ext.suffix else ext.domain`. -/
def rootDomain (e : ExtractResult) : Str :=
  if e.suffix.isEmpty then e.domain else e.domain ++ '.' :: e.suffix

/-- The body of the `try:` block of `extract_domain_from_email`
(src/sample.py lines 16-19): index into the split, decompose the
candidate, rebuild the root domain. -/
def extractBody (psl : List Str) (email : Str) : PyOutcome Str :=
  (domainCandidate email).bind fun part => .normal (rootDomain (tldext psl part))

/-- The `try`/`except Exception: return None` wrapper of the body
(src/sample.py lines 15-21), in outcome semantics: every exception of the
body becomes the normal value `none`. -/
def tryExceptNone (b : PyOutcome Str) : PyOutcome (Option Str) :=
  match b with
  | .normal s => .normal (some s)
  | .raised _ => .normal none

/-- `extract_domain_from_email` (src/sample.py lines 14-21): the root
domain of the part after the first `@`, or `none` when the body raised. -/
def extract_domain_from_email (psl : List Str) (email : Str) : Option Str :=
  match extractBody psl email with
  | .normal s => some s
  | .raised _ => none

/-- A `datetime.datetime` value as the program observes it:
year, month (1-12), day, hour, minute, second. -/
structure Datetime where
  year : Nat
  month : Nat
  day : Nat
  hour : Nat
  minute : Nat
  second : Nat
deriving DecidableEq

/-- A Python value as it can appear in a WHOIS response field: `None`,
a `datetime`, a string, or a list of such values.  `getattr` with default
`None` makes an absent attribute indistinguishable from `None`, so `none`
covers both. -/
inductive PyVal where
  | none
  | dt (d : Datetime)
  | str (s : Str)
  | list (l : List PyVal)

/-- Python truthiness of a `PyVal`: `None` is falsy, a datetime is truthy,
a string or list is truthy when non-empty. -/
def pyTruthy : PyVal → Bool
  | .none => false
  | .dt _ => true
  | .str s => !s.isEmpty
  | .list l => !l.isEmpty

/-- Decimal digits of `n`, left-padded with zeros to width `w`
(as `strftime` zero-padded fields are). -/
def natPad (w : Nat) (n : Nat) : Str :=
  let s := (toString n).toList
  List.replicate (w - s.length) '0' ++ s

/-- The full English month name used by `strftime("%B")`;
months outside 1-12 cannot arise from a `datetime`. -/
def monthName : Nat → Str
  | 1 => ("January").toList
  | 2 => ("February").toList
  | 3 => ("March").toList
  | 4 => ("April").toList
  | 5 => ("May").toList
  | 6 => ("June").toList
  | 7 => ("July").toList
  | 8 => ("August").toList
  | 9 => ("September").toList
  | 10 => ("October").toList
  | 11 => ("November").toList
  | 12 => ("December").toList
  | _ => []

/-- `d.strftime("%d %B %Y")` (src/sample.py lines 40-42): zero-padded
day of month, full month name, zero-padded four-digit year. -/
def strftime_dBY (d : Datetime) : Str :=
  natPad 2 d.day ++ ' ' :: monthName d.month ++ ' ' :: natPad 4 d.year

mutual

/-- Python `repr` of a `PyVal` (quote-escaping inside string literals is
not modelled; no claim evaluates it on a string containing a quote). -/
def pyRepr : PyVal → Str
  | .none => ("None").toList
  | .dt d =>
    ("datetime.datetime(").toList ++ (toString d.year).toList ++ ',' :: ' ' ::
      (toString d.month).toList ++ ',' :: ' ' :: (toString d.day).toList ++ ',' :: ' ' ::
      (toString d.hour).toList ++ ',' :: ' ' :: (toString d.minute).toList ++
      (if d.second = 0 then [] else ',' :: ' ' :: (toString d.second).toList) ++ [')']
  | .str s => '\'' :: s ++ ['\'']
  | .list l => '[' :: pyReprList l ++ [']']

/-- Comma-space separated `repr`s of the elements of a list, as inside
Python's list `repr`. -/
def pyReprList : List PyVal → Str
  | [] => []
  | v :: rest =>
    pyRepr v ++ (match rest with | [] => [] | _ :: _ => [',', ' ']) ++ pyReprList rest

end

/-- Python `str` of a `PyVal`: a string is itself, a datetime shows as its
ISO form with a space separator, `None` and lists show as their `repr`. -/
def pyStr : PyVal → Str
  | .none => ("None").toList
  | .dt d =>
    natPad 4 d.year ++ '-' :: natPad 2 d.month ++ '-' :: natPad 2 d.day ++ ' ' ::
      natPad 2 d.hour ++ ':' :: natPad 2 d.minute ++ ':' :: natPad 2 d.second
  | .str s => s
  | .list l => '[' :: pyReprList l ++ [']']

/-- `_pick_date` (src/sample.py lines 28-31): a list is replaced by its
first element (`d[0]`, an `IndexError` on an empty list), anything else is
returned unchanged. -/
def pick_date : PyVal → PyOutcome PyVal
  | .list [] => .raised .indexError
  | .list (d :: _) => .normal d
  | d => .normal d

/-- The guard pattern of src/sample.py lines 33-35:
`_pick_date(w.field) if getattr(w, "field", None) else None`. -/
def guardedPick (v : PyVal) : PyOutcome PyVal :=
  if pyTruthy v then pick_date v else .normal .none

/-- The formatting expression of src/sample.py lines 40-42:
`c.strftime("%d %B %Y") if isinstance(c, datetime) else str(c) if c else None`. -/
def formatPicked (c : PyVal) : Option Str :=
  match c with
  | .dt d => some (strftime_dBY d)
  | c => if pyTruthy c then some (pyStr c) else none

/-- The complete normalization of one date-like WHOIS field, combining the
guarded pick (lines 33-35) with the formatting (lines 40-42). -/
def dateField (v : PyVal) : PyOutcome (Option Str) :=
  (guardedPick v).bind fun c => .normal (formatPicked c)

/-- Date normalization as the amended claim words it: an absent or falsy
source yields null; a (truthy) list contributes its first element as the
canonical value, the rest discarded; a canonical datetime is formatted as
day, month name, year; a truthy non-datetime canonical value yields its
verbatim string form; a falsy canonical value yields null. -/
def dateFieldSpec (v : PyVal) : Option Str :=
  if pyTruthy v then
    match (match v with | PyVal.list l => l.headD PyVal.none | x => x) with
    | PyVal.dt d => some (strftime_dBY d)
    | c => if pyTruthy c then some (pyStr c) else none
  else none

/-- A WHOIS response object as the program reads it (through `getattr`
with a `None`/`[]` default, which merges an absent attribute with a
present `None`): date fields are arbitrary Python values, `registrar` an
optional string, `name_servers` an optional list, `raw` the `str(w)`
serialization. -/
structure WhoisResp where
  creation_date : PyVal
  updated_date : PyVal
  expiration_date : PyVal
  registrar : Option Str
  name_servers : Option (List Str)
  raw : Str

/-- The normalized record `get_domain_history` builds
(src/sample.py lines 37-46). -/
structure DomainRecord where
  domain : Str
  registrar : Option Str
  creation_date : Option Str
  updated_date : Option Str
  expiry_date : Option Str
  name_servers : List Str
  raw_whois : Str
deriving DecidableEq

/-- `get_domain_history` (src/sample.py lines 24-48), parameterized by the
WHOIS collaborator `whoisFn` (the library call `whois.whois`, which may
raise): query, then normalize each field into a `DomainRecord`.
`list(getattr(w, "name_servers", []) or [])` coerces an absent or `None`
name-server field to the empty list. -/
def get_domain_history (whoisFn : Str → PyOutcome WhoisResp) (domain : Str) :
    PyOutcome DomainRecord :=
  (whoisFn domain).bind fun w =>
  (dateField w.creation_date).bind fun created =>
  (dateField w.updated_date).bind fun updated =>
  (dateField w.expiration_date).bind fun expiry =>
  .normal
    { domain := domain
      registrar := w.registrar
      creation_date := created
      updated_date := updated
      expiry_date := expiry
      name_servers := w.name_servers.getD []
      raw_whois := w.raw }

/-- The record `get_domain_history` produces from a successful WHOIS
response `w`, written out field by field. -/
def recOf (domain : Str) (w : WhoisResp) : DomainRecord :=
  { domain := domain
    registrar := w.registrar
    creation_date := dateFieldSpec w.creation_date
    updated_date := dateFieldSpec w.updated_date
    expiry_date := dateFieldSpec w.expiration_date
    name_servers := w.name_servers.getD []
    raw_whois := w.raw }

/-- The display fallback `value or "—"` of src/sample.py lines 77-80:
a missing or empty value renders as the em-dash marker. -/
def orDash (o : Option Str) : Str :=
  match o with
  | some s => if s.isEmpty then ("—").toList else s
  | none => ("—").toList

/-- Python's `", ".join(l)`. -/
def joinCommaSpace : List Str → Str
  | [] => []
  | [x] => x
  | x :: rest => x ++ ',' :: ' ' :: joinCommaSpace rest

/-- The lines the result display writes (src/sample.py lines 77-84): the
four field lines, then — only when the name-server list is non-empty — a
name-server header line and the joined list. -/
def displayLines (info : DomainRecord) : List Str :=
  [("**Registrar:** ").toList ++ orDash info.registrar,
   ("**Creation date:** ").toList ++ orDash info.creation_date,
   ("**Last updated:** ").toList ++ orDash info.updated_date,
   ("**Expires on:** ").toList ++ orDash info.expiry_date]
  ++ (if info.name_servers.isEmpty then []
      else [("**Name servers:**").toList, joinCommaSpace info.name_servers])

/-- f-string interpolation of a value that is either a string or `None`:
`None` shows as the text `None`. -/
def fstr (o : Option Str) : Str :=
  match o with
  | some s => s
  | none => ("None").toList

/-- The downloadable report text (src/sample.py lines 91-99), with the
fixed field order and the trailing raw WHOIS dump. -/
def reportText (info : DomainRecord) : Str :=
  ("Domain: ").toList ++ (info.domain ++ ('\n' ::
  (("Registrar: ").toList ++ (fstr info.registrar ++ ('\n' ::
  (("Creation date: ").toList ++ (fstr info.creation_date ++ ('\n' ::
  (("Last updated: ").toList ++ (fstr info.updated_date ++ ('\n' ::
  (("Expiry date: ").toList ++ (fstr info.expiry_date ++ ('\n' ::
  (("Name servers: ").toList ++ (joinCommaSpace info.name_servers ++ ('\n' ::
  ('\n' ::
  (("Raw WHOIS:").toList ++ ('\n' ::
  info.raw_whois))))))))))))))))))))

/-- The first line of a line list of the form `Domain: <value>`, with the
value returned; `none` when no line has the `Domain: ` head. -/
def firstDomainLine : List Str → Option Str
  | [] => none
  | line :: rest =>
    if (("Domain: ").toList).isPrefixOf line
    then some (line.drop (("Domain: ").toList).length)
    else firstDomainLine rest

/-- Modelled from the spec: re-parsing the downloadable report's first
`Domain:` line (spec section 8's round-trip property; the parser itself is
not part of the repository). -/
def parseDomainLine (txt : Str) : Option Str :=
  firstDomainLine (pySplit '\n' txt)

/-- The error text shown by the module-level handler
(src/sample.py line 104): `f"Error fetching WHOIS info: {e}"`. -/
def errorMessage (e : PyExc) : Str :=
  ("Error fetching WHOIS info: ").toList ++ e.message

/-- The outcome of one submission past successful domain extraction:
either the record with its rendered display lines and report text, or the
error message of the module-level `except` handler. -/
inductive CheckOutcome where
  | success (info : DomainRecord) (lines : List Str) (report : Str)
  | failure (msg : Str)
deriving DecidableEq

/-- The module-level `try`/`except` around `get_domain_history` and the
rendering (src/sample.py lines 73-104): a raised exception becomes the
displayed error message, a normal record is displayed and offered for
download. -/
def runLookup (whoisFn : Str → PyOutcome WhoisResp) (domain : Str) : CheckOutcome :=
  match get_domain_history whoisFn domain with
  | .normal info => .success info (displayLines info) (reportText info)
  | .raised e => .failure (errorMessage e)

/-- A concrete record whose WHOIS fields are all absent, used to exercise
the rendering of missing fields. -/
def rec0 : DomainRecord :=
  { domain := ("example.com").toList
    registrar := none
    creation_date := none
    updated_date := none
    expiry_date := none
    name_servers := []
    raw_whois := [] }

/-- A concrete record whose domain contains a newline, used against the
report round-trip. -/
def rec9c : DomainRecord :=
  { domain := ("a\nb").toList
    registrar := none
    creation_date := none
    updated_date := none
    expiry_date := none
    name_servers := []
    raw_whois := ("Domain: fake").toList }

/-- A concrete well-formed record for the report round-trip. -/
def rec9w : DomainRecord :=
  { domain := ("example.com").toList
    registrar := some (("Example Registrar").toList)
    creation_date := some (("14 August 1995").toList)
    updated_date := none
    expiry_date := none
    name_servers := [("ns1.example.com").toList, ("ns2.example.com").toList]
    raw_whois := ("raw").toList }

/-- A concrete WHOIS response whose name-server list contains a duplicate,
used to exercise order preservation without deduplication. -/
def w8 : WhoisResp :=
  { creation_date := PyVal.dt ⟨1995, 8, 14, 0, 0, 0⟩
    updated_date := PyVal.none
    expiration_date := PyVal.none
    registrar := some (("Example Registrar").toList)
    name_servers := some [("ns1.example.com").toList, ("ns1.example.com").toList,
      ("ns2.example.com").toList]
    raw := ("raw").toList }

/-- A WHOIS collaborator that always answers with `w8`. -/
def whois8 : Str → PyOutcome WhoisResp := fun _ => .normal w8


lemma dateField_eq_spec (v : PyVal) : dateField v = PyOutcome.normal (dateFieldSpec v) := by
  cases v with
  | none => rfl
  | dt d => rfl
  | str s => cases s <;> rfl
  | list l => cases l <;> rfl

lemma get_domain_history_normal (whoisFn : Str → PyOutcome WhoisResp) (domain : Str)
    (w : WhoisResp) (h : whoisFn domain = PyOutcome.normal w) :
    get_domain_history whoisFn domain = PyOutcome.normal (recOf domain w) := by
  simp [get_domain_history, h, PyOutcome.bind, dateField_eq_spec, recOf]

lemma pySplit_ne_nil (sep : Char) (s : Str) : pySplit sep s ≠ [] := by
  induction s with
  | nil => simp [pySplit]
  | cons c rest ih =>
    by_cases hc : c = sep
    · simp [pySplit, hc]
    · cases hr : pySplit sep rest <;> simp [pySplit, hc, hr]

lemma pySplit_parts (sep : Char) (s : Str) :
    ∀ part ∈ pySplit sep s, sep ∉ part ∧ ∀ c ∈ part, c ∈ s := by
  induction s with
  | nil =>
    intro part hp
    simp [pySplit] at hp
    simp [hp]
  | cons x rest ih =>
    intro part hp
    by_cases hx : x = sep
    · rw [pySplit, if_pos hx] at hp
      rcases List.mem_cons.1 hp with h | h
      · simp [h]
      · obtain ⟨h1, h2⟩ := ih part h
        exact ⟨h1, fun c hc => List.mem_cons_of_mem x (h2 c hc)⟩
    · rw [pySplit, if_neg hx] at hp
      cases hr : pySplit sep rest with
      | nil => exact absurd hr (pySplit_ne_nil sep rest)
      | cons h t =>
        rw [hr] at hp
        have hh : h ∈ pySplit sep rest := by rw [hr]; exact List.mem_cons_self h t
        rcases List.mem_cons.1 hp with h' | h'
        · subst h'
          obtain ⟨h1, h2⟩ := ih h hh
          constructor
          · intro hmem
            rcases List.mem_cons.1 hmem with h'' | h''
            · exact hx h''.symm
            · exact h1 h''
          · intro c hc
            rcases List.mem_cons.1 hc with h'' | h''
            · exact h'' ▸ List.mem_cons_self x rest
            · exact List.mem_cons_of_mem x (h2 c h'')
        · obtain ⟨h1, h2⟩ := ih part (by rw [hr]; exact List.mem_cons_of_mem h h')
          exact ⟨h1, fun c hc => List.mem_cons_of_mem x (h2 c hc)⟩

lemma pySplit_two_le_iff (sep : Char) (s : Str) :
    2 ≤ (pySplit sep s).length ↔ sep ∈ s := by
  induction s with
  | nil => simp [pySplit]
  | cons x rest ih =>
    by_cases hx : x = sep
    · rw [pySplit, if_pos hx]
      have := pySplit_ne_nil sep rest
      constructor
      · intro _; exact hx ▸ List.mem_cons_self x rest
      · intro _
        cases hr : pySplit sep rest with
        | nil => exact absurd hr this
        | cons h t => simp [hr]
    · rw [pySplit, if_neg hx]
      cases hr : pySplit sep rest with
      | nil => exact absurd hr (pySplit_ne_nil sep rest)
      | cons h t =>
        rw [hr] at ih
        simp at ih ⊢
        constructor
        · intro hlen
          right
          exact ih.1 (by omega)
        · intro hmem
          rcases hmem with h' | h'
          · exact absurd h'.symm hx
          · have := ih.2 h'
            omega

lemma pySplit_append_sep (sep : Char) (a b : Str) (ha : sep ∉ a) :
    pySplit sep (a ++ sep :: b) = a :: pySplit sep b := by
  induction a with
  | nil => simp [pySplit]
  | cons x a' ih =>
    have hx : ¬ x = sep := fun h => ha (h ▸ List.mem_cons_self x a')
    have ha' : sep ∉ a' := fun h => ha (List.mem_cons_of_mem x h)
    rw [List.cons_append, pySplit, if_neg hx, ih ha']

lemma get1_none_iff {α : Type} (l : List α) : l[1]? = none ↔ l.length ≤ 1 := by
  cases l with
  | nil => simp
  | cons a t => cases t <;> simp

lemma get1_mem {α : Type} (l : List α) (a : α) (h : l[1]? = some a) : a ∈ l := by
  cases l with
  | nil => simp at h
  | cons x t =>
    cases t with
    | nil => simp at h
    | cons y t' =>
      simp at h
      subst h
      exact List.mem_cons_of_mem x (List.mem_cons_self _ _)

lemma joinDots_mem (ls : List Str) (c : Char) (h : c ∈ joinDots ls) :
    c = '.' ∨ ∃ l ∈ ls, c ∈ l := by
  induction ls with
  | nil => simp [joinDots] at h
  | cons x rest ih =>
    cases rest with
    | nil =>
      right
      exact ⟨x, List.mem_cons_self x [], by simpa [joinDots] using h⟩
    | cons y t =>
      have hj : joinDots (x :: y :: t) = x ++ '.' :: joinDots (y :: t) := rfl
      rw [hj] at h
      rcases List.mem_append.1 h with h' | h'
      · exact Or.inr ⟨x, List.mem_cons_self _ _, h'⟩
      · rcases List.mem_cons.1 h' with h'' | h''
        · exact Or.inl h''
        · rcases ih h'' with h3 | ⟨l, hl, hcl⟩
          · exact Or.inl h3
          · exact Or.inr ⟨l, List.mem_cons_of_mem x hl, hcl⟩

lemma getLastD_mem_cons {α : Type} : ∀ (l : List α) (d : α), l.getLastD d ∈ d :: l
  | [], d => List.mem_cons_self d []
  | a :: t, d => by
    rw [List.getLastD_cons]
    exact List.mem_cons_of_mem d (getLastD_mem_cons t a)

lemma getLastD_cases {α : Type} (l : List α) (d : α) :
    l.getLastD d = d ∨ l.getLastD d ∈ l := by
  rcases List.mem_cons.1 (getLastD_mem_cons l d) with h | h
  · exact Or.inl h
  · exact Or.inr h

lemma mkExtract_domain_chars (psl : List Str) (labels : List Str) (c : Char)
    (h : c ∈ (mkExtract psl labels).domain) : ∃ l ∈ labels, c ∈ l := by
  rw [mkExtract] at h
  split at h
  · simp only at h
    rcases getLastD_cases labels [] with he | he
    · rw [he] at h; simp at h
    · exact ⟨labels.getLastD [], he, h⟩
  · simp only at h
    rcases getLastD_cases (labels.take (labels.length - bestSuffix psl labels)) [] with he | he
    · rw [he] at h; simp at h
    · exact ⟨_, List.mem_of_mem_take he, h⟩

lemma mkExtract_suffix_chars (psl : List Str) (labels : List Str) (c : Char)
    (h : c ∈ (mkExtract psl labels).suffix) : c = '.' ∨ ∃ l ∈ labels, c ∈ l := by
  rw [mkExtract] at h
  split at h
  · simp at h
  · simp only at h
    rcases joinDots_mem _ c h with h' | ⟨l, hl, hcl⟩
    · exact Or.inl h'
    · exact Or.inr ⟨l, List.mem_of_mem_drop hl, hcl⟩

lemma rootDomain_no_sep (psl : List Str) (part : Str) (hat : '@' ∉ part) :
    '@' ∉ rootDomain (tldext psl part) := by
  have hdom : '@' ∉ (tldext psl part).domain := by
    intro h
    obtain ⟨l, hl, hcl⟩ := mkExtract_domain_chars psl (pySplit '.' part) '@' h
    exact hat ((pySplit_parts '.' part l hl).2 '@' hcl)
  have hsuf : '@' ∉ (tldext psl part).suffix := by
    intro h
    rcases mkExtract_suffix_chars psl (pySplit '.' part) '@' h with h' | ⟨l, hl, hcl⟩
    · exact absurd h' (by decide)
    · exact hat ((pySplit_parts '.' part l hl).2 '@' hcl)
  rw [rootDomain]
  split
  · exact hdom
  · intro h
    rcases List.mem_append.1 h with h' | h'
    · exact hdom h'
    · rcases List.mem_cons.1 h' with h'' | h''
      · exact absurd h'' (by decide)
      · exact hsuf h''

lemma isPrefixOf_append_self (p t : Str) : p.isPrefixOf (p ++ t) = true := by
  induction p with
  | nil => simp [List.isPrefixOf]
  | cons c p' ih => simp [List.isPrefixOf, ih]

/-- C1 counterexample: the claim says a present non-datetime source value is
normalized to its verbatim string form, but for the present (non-absent,
non-null) source value `""` the code's truthiness guard yields null instead
of the verbatim string `""`. -/
theorem c1_date_verbatim_counterexample :
    dateField (PyVal.str []) = PyOutcome.normal none ∧
    dateField (PyVal.str []) ≠ PyOutcome.normal (some (pyStr (PyVal.str []))) := by
  decide

/-- C1 amended: for each date-like field of the WHOIS response, normalization
never raises and equals `dateFieldSpec`: an absent or falsy source value
(such as the empty string or empty list) yields null; a truthy list
contributes its first element as canonical, the rest discarded; a canonical
datetime is formatted as day-of-month, full month name, four-digit year; a
truthy non-datetime canonical value yields its verbatim string form; a falsy
canonical value yields null. -/
theorem c1_date_normalization_amended (v : PyVal) :
    dateField v = PyOutcome.normal (dateFieldSpec v) :=
  dateField_eq_spec v

/-- C2: for every email whose domain candidate is decomposed by public-suffix
parsing, `extract_domain_from_email` returns the registrable label joined to
the public suffix with a dot when a suffix is recognized (non-empty), and the
registrable label alone when no suffix is recognized. -/
theorem c2_root_domain_cases (psl : List Str) (email part : Str)
    (h : domainCandidate email = PyOutcome.normal part) :
    ((tldext psl part).suffix ≠ [] →
      extract_domain_from_email psl email
        = some ((tldext psl part).domain ++ '.' :: (tldext psl part).suffix)) ∧
    ((tldext psl part).suffix = [] →
      extract_domain_from_email psl email = some ((tldext psl part).domain)) := by
  have hx : extract_domain_from_email psl email = some (rootDomain (tldext psl part)) := by
    simp [extract_domain_from_email, extractBody, h, PyOutcome.bind]
  refine ⟨fun hs => ?_, fun hs => ?_⟩
  · rw [hx]
    simp [rootDomain, hs]
  · rw [hx]
    simp [rootDomain, hs]

/-- C2 witness: `extract_domain_from_email` on `"user@localhost"` yields the
degraded result `"localhost"` (no recognized public suffix) and does not
signal failure. -/
theorem c2_witness :
    domainCandidate (("user@localhost").toList) = PyOutcome.normal (("localhost").toList) ∧
    extract_domain_from_email defaultPSL (("user@localhost").toList)
      = some (("localhost").toList) := by
  refine ⟨by decide, ?_⟩
  have h := c2_root_domain_cases defaultPSL (("user@localhost").toList)
    (("localhost").toList) (by decide)
  exact (h.2 (by decide)).trans (by decide)

/-- C3: the WHOIS lookup never raises past its own boundary: for every
WHOIS collaborator behavior and every domain, either the collaborator raised
and the whole operation is the reported failure carrying the underlying
reason text, or the collaborator answered and the operation yields a fully
constructed (possibly partially-null) record together with its rendered
display and report — never a partial record mixed with an exception. -/
theorem c3_lookup_boundary (whoisFn : Str → PyOutcome WhoisResp) (domain : Str) :
    (∃ e, whoisFn domain = PyOutcome.raised e ∧
      runLookup whoisFn domain = CheckOutcome.failure (errorMessage e)) ∨
    (∃ w, whoisFn domain = PyOutcome.normal w ∧
      get_domain_history whoisFn domain = PyOutcome.normal (recOf domain w) ∧
      runLookup whoisFn domain =
        CheckOutcome.success (recOf domain w) (displayLines (recOf domain w))
          (reportText (recOf domain w))) := by
  cases h : whoisFn domain with
  | raised e =>
    left
    have hg : get_domain_history whoisFn domain = PyOutcome.raised e := by
      simp [get_domain_history, h, PyOutcome.bind]
    exact ⟨e, rfl, by simp [runLookup, hg]⟩
  | normal w =>
    right
    exact ⟨w, rfl, get_domain_history_normal _ _ _ h,
      by simp [runLookup, get_domain_history_normal _ _ _ h]⟩

/-- C4 counterexample: the claim says the result is the failure value `None`
whenever the domain candidate splits into zero usable components, but for
`"user@"` the candidate is `""`, its decomposition has empty registrable
label and empty suffix (zero usable components), and yet the function
returns the degraded string `""`, not the failure value. -/
theorem c4_empty_candidate_counterexample :
    domainCandidate (("user@").toList) = PyOutcome.normal [] ∧
    (tldext defaultPSL []).domain = [] ∧
    (tldext defaultPSL []).suffix = [] ∧
    extract_domain_from_email defaultPSL (("user@").toList) = some [] ∧
    extract_domain_from_email defaultPSL (("user@").toList) ≠ none := by
  decide

/-- C4 amended: `extract_domain_from_email` returns the failure value `none`
exactly when the email contains no `@` character; an email with an `@` whose
candidate has no usable components yields a degraded (empty) string instead,
which the caller rejects by falsiness. -/
theorem c4_failure_amended (psl : List Str) (email : Str) :
    extract_domain_from_email psl email = none ↔ '@' ∉ email := by
  have key : extract_domain_from_email psl email = none ↔
      (pySplit '@' email)[1]? = none := by
    cases hg : (pySplit '@' email)[1]? with
    | none =>
      simp [extract_domain_from_email, extractBody, domainCandidate, pyIndex, hg,
        PyOutcome.bind]
    | some part =>
      simp [extract_domain_from_email, extractBody, domainCandidate, pyIndex, hg,
        PyOutcome.bind]
  rw [key, get1_none_iff]
  have h2 := pySplit_two_le_iff '@' email
  constructor
  · intro hle hmem
    have := h2.mpr hmem
    omega
  · intro hnot
    by_contra hgt
    exact hnot (h2.mp (by omega))

/-- C5: for every email string containing at least one `@` character,
`extract_domain_from_email` returns a non-failure result, and the returned
value contains no `@` character. -/
theorem c5_at_result_no_at (psl : List Str) (email : Str) (h : '@' ∈ email) :
    ∃ s, extract_domain_from_email psl email = some s ∧ '@' ∉ s := by
  have hlen : 2 ≤ (pySplit '@' email).length := (pySplit_two_le_iff '@' email).mpr h
  cases hg : (pySplit '@' email)[1]? with
  | none =>
    have := (get1_none_iff _).mp hg
    omega
  | some part =>
    have hmem : part ∈ pySplit '@' email := get1_mem _ part hg
    have hat : '@' ∉ part := (pySplit_parts '@' email part hmem).1
    refine ⟨rootDomain (tldext psl part), ?_, rootDomain_no_sep psl part hat⟩
    simp [extract_domain_from_email, extractBody, domainCandidate, pyIndex, hg,
      PyOutcome.bind]

/-- C5 witness: C5 instantiated at `"alice@example.com"`. -/
theorem c5_witness :
    '@' ∈ (("alice@example.com").toList) ∧
    ∃ s, extract_domain_from_email defaultPSL (("alice@example.com").toList) = some s ∧
      '@' ∉ s :=
  ⟨by decide, c5_at_result_no_at defaultPSL (("alice@example.com").toList) (by decide)⟩

/-- C6 counterexample: the claim says the domain candidate is everything
after the first `@`, so that a second `@` and the text after it are silently
included; but `split("@")[1]` takes only the piece between the first and the
second `@`: for `"a@b@c"` the candidate is `"b"`, not `"b@c"`, and contains
no `@` at all. -/
theorem c6_second_at_counterexample :
    domainCandidate (("a@b@c").toList) = PyOutcome.normal (("b").toList) ∧
    ("b").toList ≠ ("b@c").toList ∧
    '@' ∉ ("b").toList := by
  decide

/-- C6 amended: for every email containing two or more `@` characters, the
domain candidate handed to public-suffix parsing is the segment strictly
between the first and the second `@`; the second `@` and all text following
it are silently discarded. -/
theorem c6_between_ats_amended (a b c : Str) (ha : '@' ∉ a) (hb : '@' ∉ b) :
    domainCandidate (a ++ '@' :: b ++ '@' :: c) = PyOutcome.normal b := by
  have h1 : pySplit '@' (a ++ '@' :: (b ++ '@' :: c)) = a :: pySplit '@' (b ++ '@' :: c) :=
    pySplit_append_sep '@' a _ ha
  have h2 : pySplit '@' (b ++ '@' :: c) = b :: pySplit '@' c :=
    pySplit_append_sep '@' b c hb
  simp [domainCandidate, pyIndex, h1, h2]

/-- C6 witness: C6 amended instantiated at `"user@mail.com@x"`, whose
candidate is `"mail.com"`. -/
theorem c6_witness :
    '@' ∉ ("user").toList ∧ '@' ∉ ("mail.com").toList ∧
    domainCandidate (("user").toList ++ '@' :: ("mail.com").toList ++ '@' :: ("x").toList)
      = PyOutcome.normal (("mail.com").toList) :=
  ⟨by decide, by decide,
    c6_between_ats_amended (("user").toList) (("mail.com").toList) (("x").toList)
      (by decide) (by decide)⟩

lemma parseDomainLine_of_head (dom tail : Str) (h : '\n' ∉ dom) :
    parseDomainLine (("Domain: ").toList ++ (dom ++ '\n' :: tail)) = some dom := by
  have ha : '\n' ∉ ("Domain: ").toList ++ dom := by
    intro hm
    rcases List.mem_append.1 hm with h' | h'
    · exact absurd h' (by decide)
    · exact h h'
  rw [parseDomainLine, ← List.append_assoc, pySplit_append_sep '\n' _ tail ha,
    firstDomainLine, if_pos (isPrefixOf_append_self _ _), List.drop_left]

/-- C8: in the record built from a successful WHOIS response, `nameServers`
is the empty sequence when the source field is absent or `None`, and
otherwise is exactly the source sequence — order preserved, no
deduplication. -/
theorem c8_name_servers (whoisFn : Str → PyOutcome WhoisResp) (domain : Str) (w : WhoisResp)
    (h : whoisFn domain = PyOutcome.normal w) :
    ∃ rec, get_domain_history whoisFn domain = PyOutcome.normal rec ∧
      (w.name_servers = none → rec.name_servers = []) ∧
      (∀ l, w.name_servers = some l → rec.name_servers = l) := by
  refine ⟨recOf domain w, get_domain_history_normal _ _ _ h, ?_, ?_⟩
  · intro hn
    simp [recOf, hn]
  · intro l hn
    simp [recOf, hn]

/-- C8 witness: C8 instantiated on a collaborator answering with a
name-server list containing a duplicate, which is preserved as is. -/
theorem c8_witness :
    whois8 (("example.com").toList) = PyOutcome.normal w8 ∧
    ∃ rec, get_domain_history whois8 (("example.com").toList) = PyOutcome.normal rec ∧
      (w8.name_servers = none → rec.name_servers = []) ∧
      (∀ l, w8.name_servers = some l → rec.name_servers = l) :=
  ⟨rfl, c8_name_servers whois8 (("example.com").toList) w8 rfl⟩

/-- C9 counterexample: the round-trip claim quantifies over every
`DomainRecord`, but for a record whose domain contains a newline the first
`Domain:` line of the report holds only the part before the newline, so
re-parsing does not recover the original domain. -/
theorem c9_newline_counterexample :
    rec9c.domain = ("a\nb").toList ∧
    parseDomainLine (reportText rec9c) = some (("a").toList) ∧
    parseDomainLine (reportText rec9c) ≠ some rec9c.domain := by
  decide

/-- C9 amended: for every `DomainRecord` whose domain contains no newline
character, building the downloadable report text and re-parsing its first
`Domain:` line yields exactly the record's original domain value. -/
theorem c9_roundtrip_amended (rec : DomainRecord) (h : '\n' ∉ rec.domain) :
    parseDomainLine (reportText rec) = some rec.domain := by
  rw [reportText]
  exact parseDomainLine_of_head rec.domain _ h

/-- C9 witness: C9 amended instantiated at a well-formed record with domain
`"example.com"`. -/
theorem c9_witness :
    '\n' ∉ rec9w.domain ∧ parseDomainLine (reportText rec9w) = some rec9w.domain :=
  ⟨by decide, c9_roundtrip_amended rec9w (by decide)⟩

/-- C10: `extract_domain_from_email` is total — running its `try`/`except`
wrapper on any input always ends in a normal value (a string or the failure
value `none`), never in a raised exception, because the catch-all handler
converts every exception of the body into `none`. -/
theorem c10_total_no_raise (psl : List Str) (email : Str) :
    tryExceptNone (extractBody psl email)
      = PyOutcome.normal (extract_domain_from_email psl email) := by
  cases hb : extractBody psl email <;>
    simp [tryExceptNone, extract_domain_from_email, hb]

/-- C7 counterexample: the claim says every absent field renders with an
explicit empty-value marker rather than being omitted, but with an empty
name-server list the display consists of the four field lines only — the
name-servers block is omitted entirely, with no marker. -/
theorem c7_omitted_nameservers_counterexample :
    rec0.name_servers = [] ∧
    displayLines rec0 =
      [("**Registrar:** —").toList, ("**Creation date:** —").toList,
       ("**Last updated:** —").toList, ("**Expires on:** —").toList] ∧
    ("**Name servers:**").toList ∉ displayLines rec0 := by
  decide

/-- C7 amended: when the WHOIS query succeeds but fields are absent, the
display renders registrar and the three dates with the explicit `—` marker;
the name-servers block, however, is omitted from the display when the list
is empty, while the report text always carries every line, rendering an
absent registrar as the text `None` and an empty name-server list as an
empty value after its label. -/
theorem c7_empty_markers_amended (rec : DomainRecord) :
    (rec.registrar = none → ("**Registrar:** —").toList ∈ displayLines rec) ∧
    (rec.creation_date = none → ("**Creation date:** —").toList ∈ displayLines rec) ∧
    (rec.updated_date = none → ("**Last updated:** —").toList ∈ displayLines rec) ∧
    (rec.expiry_date = none → ("**Expires on:** —").toList ∈ displayLines rec) ∧
    (rec.name_servers = [] → (displayLines rec).length = 4 ∧
      ('\n' :: (("Name servers: ").toList ++ '\n' :: '\n' :: ("Raw WHOIS:").toList))
        <:+: reportText rec) ∧
    (rec.name_servers ≠ [] → joinCommaSpace rec.name_servers ∈ displayLines rec) ∧
    (rec.registrar = none →
      ('\n' :: (("Registrar: None").toList ++ ['\n'])) <:+: reportText rec) := by
  refine ⟨?_, ?_, ?_, ?_, ?_, ?_, ?_⟩
  · intro h
    have e : ("**Registrar:** ").toList ++ orDash rec.registrar
        = ("**Registrar:** —").toList := by rw [h]; decide
    rw [displayLines, ← e]
    exact List.mem_append_left _ (List.mem_cons_self _ _)
  · intro h
    have e : ("**Creation date:** ").toList ++ orDash rec.creation_date
        = ("**Creation date:** —").toList := by rw [h]; decide
    rw [displayLines, ← e]
    exact List.mem_append_left _
      (List.mem_cons_of_mem _ (List.mem_cons_self _ _))
  · intro h
    have e : ("**Last updated:** ").toList ++ orDash rec.updated_date
        = ("**Last updated:** —").toList := by rw [h]; decide
    rw [displayLines, ← e]
    exact List.mem_append_left _
      (List.mem_cons_of_mem _ (List.mem_cons_of_mem _ (List.mem_cons_self _ _)))
  · intro h
    have e : ("**Expires on:** ").toList ++ orDash rec.expiry_date
        = ("**Expires on:** —").toList := by rw [h]; decide
    rw [displayLines, ← e]
    exact List.mem_append_left _
      (List.mem_cons_of_mem _ (List.mem_cons_of_mem _
        (List.mem_cons_of_mem _ (List.mem_cons_self _ _))))
  · intro h
    constructor
    · simp [displayLines, h]
    · refine ⟨("Domain: ").toList ++ rec.domain ++ '\n' ::
        ("Registrar: ").toList ++ fstr rec.registrar ++ '\n' ::
        ("Creation date: ").toList ++ fstr rec.creation_date ++ '\n' ::
        ("Last updated: ").toList ++ fstr rec.updated_date ++ '\n' ::
        ("Expiry date: ").toList ++ fstr rec.expiry_date,
        '\n' :: rec.raw_whois, ?_⟩
      simp [reportText, h, joinCommaSpace, List.append_assoc]
  · intro h
    cases hn : rec.name_servers with
    | nil => exact absurd hn h
    | cons x t =>
      rw [displayLines, hn]
      refine List.mem_append_right _ ?_
      simp
  · intro h
    refine ⟨("Domain: ").toList ++ rec.domain,
      ("Creation date: ").toList ++ fstr rec.creation_date ++ '\n' ::
      ("Last updated: ").toList ++ fstr rec.updated_date ++ '\n' ::
      ("Expiry date: ").toList ++ fstr rec.expiry_date ++ '\n' ::
      ("Name servers: ").toList ++ joinCommaSpace rec.name_servers ++ '\n' :: '\n' ::
      ("Raw WHOIS:").toList ++ '\n' :: rec.raw_whois, ?_⟩
    have hsplit : ("Registrar: None").toList
        = ("Registrar: ").toList ++ ("None").toList := by decide
    simp [reportText, h, fstr, hsplit, List.append_assoc]

/-- C7 witness: C7 amended instantiated at a record with all fields
absent. -/
theorem c7_witness :
    rec0.registrar = none ∧ rec0.name_servers = [] ∧
    ("**Registrar:** —").toList ∈ displayLines rec0 ∧
    (displayLines rec0).length = 4 ∧
    ('\n' :: (("Registrar: None").toList ++ ['\n'])) <:+: reportText rec0 :=
  ⟨rfl, rfl, (c7_empty_markers_amended rec0).1 rfl,
    ((c7_empty_markers_amended rec0).2.2.2.2.1 rfl).1,
    (c7_empty_markers_amended rec0).2.2.2.2.2.2 rfl⟩
